import Mathlib

/-!
Verification development for the Open Flair shift-plan application.

The definitions below are a shallow embedding of the frontend code under
`src/frontend/src` (React components and the axios service layer) and, where
the backend engine is not part of the repository snapshot, of the engine as
described by the specification (such definitions carry a doc comment starting
with `Modelled from the spec:`).  JavaScript arrays become `List`, JS objects
become structures, JS numbers become `Int`/`Nat`, and JS truthiness is made
explicit where it matters.
-/

set_option autoImplicit false

namespace OpenFlair

/-- A JavaScript value as it appears in the query parameters of the
plan-generation request (either a boolean or a number). -/
inductive JSValue where
  | bool : Bool → JSValue
  | num : Int → JSValue
deriving DecidableEq, Repr

/-- Embedding of `shiftService.generatePlan` (src/frontend/src/services/api.js,
lines 63-68): the function builds the query parameters
`\x7b clear_existing: clearExisting, use_groups: useGroups \x7d` of the POST
to `/shifts/generate-plan`, as an association list of parameter names. -/
def generatePlanParams (clearExisting useGroups : JSValue) : List (String × JSValue) :=
  [("clear_existing", clearExisting), ("use_groups", useGroups)]

/-- Default value of the first parameter of `generatePlan`
(`clearExisting = false` in api.js line 63). -/
def generatePlanDefaultClearExisting : JSValue := JSValue.bool false

/-- Default value of the second parameter of `generatePlan`
(`useGroups = true` in api.js line 63). -/
def generatePlanDefaultUseGroups : JSValue := JSValue.bool true

/-- Embedding of `handleGeneratePlan` (src/frontend/src/components/CoordinatorView.js
line 216): it invokes `shiftService.generatePlan(maxShiftsPerUser)` with the
number `maxShiftsPerUser` as the single positional argument, so that number is
bound to `clearExisting` and `useGroups` keeps its default. -/
def handleGeneratePlanParams (maxShiftsPerUser : Int) : List (String × JSValue) :=
  generatePlanParams (JSValue.num maxShiftsPerUser) generatePlanDefaultUseGroups

/-- Wall-clock start time of a shift: an abstract calendar-day index plus the
local hour and minute, as read off `new Date(shift.start_time)`. -/
structure ClockTime where
  day : Int
  hour : Nat
  minute : Nat
deriving DecidableEq, Repr

/-- A user object as rendered by the grids (only the `id` field is consulted
by the embedded logic). -/
structure UIUser where
  id : Nat
deriving DecidableEq, Repr

/-- A shift object as fetched from `GET /shifts` and enriched with its
assigned users by `shiftsWithAssignments` in CoordinatorShiftGrid.js. -/
structure UIShift where
  id : Nat
  start : ClockTime
  capacity : Option Nat
  users : List UIUser
deriving DecidableEq, Repr

/-- Embedding of `availableShiftIds` (src/frontend/src/pages/DashboardPage.js,
lines 157-159): `shifts.map(shift => shift.id).filter(id => !optedOutShifts.includes(id))`. -/
def availableShiftIds (shifts : List UIShift) (optedOutShifts : List Nat) : List Nat :=
  (shifts.map (fun s => s.id)).filter (fun i => !(optedOutShifts.contains i))

/-- Embedding of `isAvailable` (src/frontend/src/components/ShiftGrid.js,
lines 150-152): the `preferenceMap` is keyed by the ids in `userPreferences`,
so the lookup `preferenceMap[shiftId] === true` is list membership. -/
def isAvailable (userPreferences : List Nat) (shiftId : Nat) : Bool :=
  userPreferences.contains shiftId

/-- Embedding of the candidate filtering in `handleOpenAddUserDialog`
(src/frontend/src/components/CoordinatorShiftGrid.js, lines 236-237):
`response.data.filter(user => !currentUserIds.has(user.id))` where
`currentUserIds` is the set of ids of the users already on the shift. -/
def filterAvailableUsers (availableUsers : List UIUser) (shiftUsers : List UIUser) : List UIUser :=
  let currentUserIds := shiftUsers.map (fun u => u.id)
  availableUsers.filter (fun u => !(currentUserIds.contains u.id))

/-- How an assignment was produced (`assigned_via` in the API payload). -/
inductive AssignedVia where
  | individual
  | group
deriving DecidableEq, Repr

/-- An Assignment record as stored by the engine and echoed to the UI. -/
structure Assignment where
  shiftId : Nat
  userId : Nat
  via : AssignedVia
  groupId : Option Nat
deriving DecidableEq, Repr

/-- Modelled from the spec: `resetAll()` — the `DELETE /shifts/all-assignments`
endpoint (called by `shiftService.clearAllAssignments`, api.js line 70) is not
part of the repository snapshot; per spec section 4.4 it deletes every
Assignment record unconditionally and returns the affected count. -/
def resetAll (assignments : List Assignment) : Nat × List Assignment :=
  (assignments.length, [])

/-- The pieces of CoordinatorView state touched by the reset handler. -/
structure CoordViewState where
  currentAssignments : Option (List Assignment)
  lastGenerated : Option Nat
  errorMsg : Option String

/-- Embedding of the success path of `handleResetAllAssignments`
(src/frontend/src/components/CoordinatorView.js, lines 230-240): after the
delete call succeeds the component sets `currentAssignments`, `lastGenerated`
and `error` to null. -/
def handleResetAllAssignmentsSuccess (_s : CoordViewState) : CoordViewState :=
  ⟨none, none, none⟩

/-- The action computed for a shift inside `handleBatchDayToggle`
(src/frontend/src/pages/DashboardPage.js): either an opt-in or an opt-out. -/
inductive BatchAction where
  | optIn
  | optOut
deriving DecidableEq, Repr

/-- A dashboard user: id and optional group membership (`user.group_id`). -/
structure DashUser where
  id : Nat
  groupId : Option Nat
deriving DecidableEq, Repr

/-- The four opt-out/opt-in endpoints of `shiftService` (api.js lines 55-58),
each with the payload the dashboard sends. -/
inductive OptRequest where
  | groupOptIn (groupId shiftId : Nat)
  | groupOptOut (groupId shiftId : Nat)
  | userOptIn (userId shiftId : Nat)
  | userOptOut (userId shiftId : Nat)
deriving DecidableEq, Repr

/-- The scope at which an opt-out/opt-in request is issued. -/
inductive OptScope where
  | group (groupId shiftId : Nat)
  | individual (userId shiftId : Nat)
deriving DecidableEq, Repr

/-- The scope carried by each request variant. -/
def requestScope : OptRequest → OptScope
  | OptRequest.groupOptIn g s => OptScope.group g s
  | OptRequest.groupOptOut g s => OptScope.group g s
  | OptRequest.userOptIn u s => OptScope.individual u s
  | OptRequest.userOptOut u s => OptScope.individual u s

/-- Embedding of the request selection in `handleTogglePreference`
(src/frontend/src/pages/DashboardPage.js, lines 188-239): a user with a
`group_id` issues group-scoped opt-in/opt-out, otherwise individual-scoped,
the direction depending on whether the shift is currently opted out. -/
def toggleRequest (user : DashUser) (optedOutShifts : List Nat) (shiftId : Nat) : OptRequest :=
  let isOptedOut := optedOutShifts.contains shiftId
  match user.groupId with
  | some g => if isOptedOut then OptRequest.groupOptIn g shiftId else OptRequest.groupOptOut g shiftId
  | none => if isOptedOut then OptRequest.userOptIn user.id shiftId else OptRequest.userOptOut user.id shiftId

/-- Embedding of the per-shift request selection in `handleBatchDayToggle`
(src/frontend/src/pages/DashboardPage.js, lines 316-348): each processed shift
goes through the same group-versus-individual choice. -/
def batchShiftRequest (user : DashUser) (action : BatchAction) (shiftId : Nat) : OptRequest :=
  match action with
  | BatchAction.optIn =>
    match user.groupId with
    | some g => OptRequest.groupOptIn g shiftId
    | none => OptRequest.userOptIn user.id shiftId
  | BatchAction.optOut =>
    match user.groupId with
    | some g => OptRequest.groupOptOut g shiftId
    | none => OptRequest.userOptOut user.id shiftId

/-- Embedding of the optimistic update in `handleTogglePreference`
(src/frontend/src/pages/DashboardPage.js, lines 181-185): an opted-out shift
is removed from the opted-out list, otherwise it is appended. -/
def toggleOptimisticUpdate (optedOutShifts : List Nat) (shiftId : Nat) : List Nat :=
  if optedOutShifts.contains shiftId then optedOutShifts.filter (fun i => i != shiftId)
  else optedOutShifts ++ [shiftId]

/-- Embedding of the revert in the catch branch of `handleTogglePreference`
(src/frontend/src/pages/DashboardPage.js, lines 244-248), parameterized by the
`isOptedOut` flag captured before the optimistic update. -/
def toggleRevertUpdate (isOptedOut : Bool) (cur : List Nat) (shiftId : Nat) : List Nat :=
  if isOptedOut then cur ++ [shiftId] else cur.filter (fun i => i != shiftId)

/-- The opted-out list after a failed single toggle: the optimistic update
followed by the revert of the catch branch. -/
def handleTogglePreferenceFailure (optedOutShifts : List Nat) (shiftId : Nat) : List Nat :=
  toggleRevertUpdate (optedOutShifts.contains shiftId)
    (toggleOptimisticUpdate optedOutShifts shiftId) shiftId

/-- Embedding of the `shiftsToProcess` computation in `handleBatchDayToggle`
(src/frontend/src/pages/DashboardPage.js, lines 279-289): a shift is processed
with `opt_in` when it should be selected but is currently opted out, and with
`opt_out` when it should be deselected but is currently selected. -/
def batchShiftsToProcess (optedOutShifts dayShiftIds : List Nat) (shouldSelect : Bool) :
    List (Nat × BatchAction) :=
  dayShiftIds.filterMap (fun i =>
    let isCurrentlySelected := !(optedOutShifts.contains i)
    if shouldSelect && !isCurrentlySelected then some (i, BatchAction.optIn)
    else if !shouldSelect && isCurrentlySelected then some (i, BatchAction.optOut)
    else none)

/-- Embedding of the optimistic batch update
(src/frontend/src/pages/DashboardPage.js, lines 302-314): `opt_in` removes the
shift id from the opted-out list, `opt_out` appends it if absent. -/
def batchOptimisticUpdate (optedOutShifts : List Nat)
    (toProcess : List (Nat × BatchAction)) : List Nat :=
  toProcess.foldl (fun acc p =>
    match p.2 with
    | BatchAction.optIn => acc.filter (fun i => i != p.1)
    | BatchAction.optOut => if acc.contains p.1 then acc else acc ++ [p.1]) optedOutShifts

/-- Embedding of the revert of failed batch operations
(src/frontend/src/pages/DashboardPage.js, lines 366-383): a failed `opt_in`
puts the id back into the opted-out list, a failed `opt_out` removes it. -/
def batchRevertFailed (cur : List Nat) (failed : List (Nat × BatchAction)) : List Nat :=
  failed.foldl (fun acc p =>
    match p.2 with
    | BatchAction.optIn => if acc.contains p.1 then acc else acc ++ [p.1]
    | BatchAction.optOut => acc.filter (fun i => i != p.1)) cur

/-- Embedding of `getShiftDisplayDate`
(src/frontend/src/components/CoordinatorShiftGrid.js, lines 70-82): a shift
starting between midnight and 6 AM is displayed under the previous calendar
day (the `hour >= 0` half of the source guard is vacuous for `Nat` hours). -/
def getShiftDisplayDay (t : ClockTime) : Int :=
  if t.hour < 6 then t.day - 1 else t.day

/-- Embedding of the `dateKey` grouping in ShiftGrid.js (line 100): the
volunteer grid groups a shift under its actual start date. -/
def dashboardDateKey (t : ClockTime) : Int :=
  t.day

/-- Embedding of `getMinutes` inside the `shiftsByDate` sort comparator
(src/frontend/src/components/CoordinatorShiftGrid.js, lines 209-215): early
morning hours (0-5) are treated as late night by adding 24 hours. -/
def coordSortMinutes (t : ClockTime) : Nat :=
  if t.hour < 6 then (t.hour + 24) * 60 + t.minute else t.hour * 60 + t.minute

/-- Embedding of `getMinutes` inside the `sortedTimeSlots` comparator
(src/frontend/src/components/ShiftGrid.js, lines 126-130), applied to the
hour/minute parsed from a time-slot label. -/
def gridSlotMinutes (hour minute : Nat) : Nat :=
  if hour < 6 then (hour + 24) * 60 + minute else hour * 60 + minute

/-- The longest leading run of decimal digits of a character list. -/
def takeDigits (cs : List Char) : List Char :=
  cs.takeWhile (fun c => c.isDigit)

/-- Numeric value of a list of decimal digit characters. -/
def digitsToNat (ds : List Char) : Nat :=
  ds.foldl (fun acc c => acc * 10 + (c.toNat - 48)) 0

/-- Embedding of JavaScript `parseInt` on the sanitized value of a numeric
input field: an optional sign followed by the longest digit prefix; `none`
models `NaN` (no digits at all). -/
def parseIntJS (s : String) : Option Int :=
  match s.data with
  | [] => none
  | c :: rest =>
    if c = '-' then
      let ds := takeDigits rest
      if ds.isEmpty then none else some (-(digitsToNat ds : Int))
    else if c = '+' then
      let ds := takeDigits rest
      if ds.isEmpty then none else some (digitsToNat ds)
    else
      let ds := takeDigits (c :: rest)
      if ds.isEmpty then none else some (digitsToNat ds)

/-- Embedding of the Max Shifts per User `onChange` handler
(src/frontend/src/components/CoordinatorView.js, line 533):
`setMaxShiftsPerUser(parseInt(e.target.value) || 10)` — `NaN` and `0` are
falsy and replaced by 10, every other parsed value is stored as is. -/
def maxShiftsPerUserOnChange (value : String) : Int :=
  match parseIntJS value with
  | none => 10
  | some n => if n = 0 then 10 else n

/-- JavaScript truthiness of the `capacity` field: `null`/`undefined` and `0`
are falsy. -/
def jsFalsyCapacity : Option Nat → Bool
  | none => true
  | some c => c == 0

/-- The comparison `currentStaff < shift.capacity` (against a missing
capacity the JS comparison is false; it is only reached when the capacity is
truthy). -/
def capacityCompare (staff : Nat) : Option Nat → Bool
  | none => false
  | some c => decide (staff < c)

/-- Embedding of `hasCapacity`
(src/frontend/src/components/CoordinatorShiftGrid.js, line 388):
`!shift.capacity || currentStaff < shift.capacity`; the add-user button is
rendered exactly when this is true (line 418). -/
def hasCapacity (shift : UIShift) : Bool :=
  jsFalsyCapacity shift.capacity || capacityCompare shift.users.length shift.capacity

/-- Modelled from the spec: a Shift as read by the engine (spec section 3) —
identifier, start timestamp and optional capacity; title and location play no
role in the allocation. -/
structure Shift where
  id : Nat
  startTime : Nat
  capacity : Option Nat
deriving DecidableEq, Repr

/-- Modelled from the spec: a Volunteer with at most one group membership
(spec section 3). -/
structure Volunteer where
  id : Nat
  groupId : Option Nat
deriving DecidableEq, Repr

/-- Modelled from the spec: a Group with an active flag and its member
volunteer ids (spec section 3). -/
structure Group where
  id : Nat
  active : Bool
  members : List Nat
deriving DecidableEq, Repr

/-- Modelled from the spec: the actor of an OptOut record, either a volunteer
or a group (spec section 3). -/
inductive OptOutTarget where
  | user (id : Nat)
  | group (id : Nat)
deriving DecidableEq, Repr

/-- Modelled from the spec: an OptOut record for one shift (spec section 3). -/
structure OptOut where
  shiftId : Nat
  target : OptOutTarget
deriving DecidableEq, Repr

/-- Modelled from the spec: the engine's run-wide configuration
(spec section 6). -/
structure PlanConfig where
  clearExisting : Bool
  useGroups : Bool
  maxShiftsPerUser : Nat
deriving DecidableEq, Repr

/-- Number of assignments a volunteer currently holds (the fairness counter,
spec section 4.2). -/
def userShiftCount (assignments : List Assignment) (userId : Nat) : Nat :=
  (assignments.filter (fun a => a.userId == userId)).length

/-- Number of assignments a shift currently holds. -/
def assignedCount (assignments : List Assignment) (shiftId : Nat) : Nat :=
  (assignments.filter (fun a => a.shiftId == shiftId)).length

/-- Whether a volunteer already has an assignment on a shift (used to keep
the no-duplicate invariant of spec section 3). -/
def alreadyOnShift (assignments : List Assignment) (shiftId userId : Nat) : Bool :=
  assignments.any (fun a => a.shiftId == shiftId && a.userId == userId)

/-- Modelled from the spec: an individual opt-out record exists for
(userId, shiftId) (spec section 4.1). -/
def userOptedOut (optOuts : List OptOut) (userId shiftId : Nat) : Bool :=
  optOuts.any (fun o => o.shiftId == shiftId && o.target == OptOutTarget.user userId)

/-- Modelled from the spec: a group opt-out record exists for
(groupId, shiftId) (spec section 4.1). -/
def groupOptedOut (optOuts : List OptOut) (groupId shiftId : Nat) : Bool :=
  optOuts.any (fun o => o.shiftId == shiftId && o.target == OptOutTarget.group groupId)

/-- Modelled from the spec: an individual is eligible for a shift iff not
opted out of it directly (spec section 4.1). -/
def eligibleIndividual (optOuts : List OptOut) (shiftId : Nat) (v : Volunteer) : Bool :=
  !(userOptedOut optOuts v.id shiftId)

/-- Modelled from the spec: a group is eligible for a shift iff it is active,
has at least one member, has no group-level opt-out for the shift, and no
member has opted out of the shift directly (spec section 4.1). -/
def eligibleGroup (optOuts : List OptOut) (shiftId : Nat) (g : Group) : Bool :=
  g.active && !(g.members.isEmpty) && !(groupOptedOut optOuts g.id shiftId) &&
    g.members.all (fun m => !(userOptedOut optOuts m shiftId))

/-- Boolean lexicographic order on (primary, identifier) sort keys — the
deterministic tie-break of spec sections 4.3 and 9. -/
def keyLe (k1 k2 : Nat × Nat) : Bool :=
  decide (k1.1 < k2.1) || (decide (k1.1 = k2.1) && decide (k1.2 ≤ k2.2))

/-- Insertion step of the deterministic key sort. -/
def insertByKey {α : Type} (key : α → Nat × Nat) (a : α) : List α → List α
  | [] => [a]
  | b :: bs => if keyLe (key a) (key b) then a :: b :: bs else b :: insertByKey key a bs

/-- Deterministic insertion sort by a (primary, identifier) key. -/
def sortByKey {α : Type} (key : α → Nat × Nat) : List α → List α
  | [] => []
  | a :: as => insertByKey key a (sortByKey key as)

/-- Whether the shift still has room for one more assignment (the while-loop
guard of spec section 4.3; a missing capacity is unbounded). -/
def capOkFor (shift : Shift) (acc : List Assignment) : Bool :=
  match shift.capacity with
  | none => true
  | some c => decide (assignedCount acc shift.id < c)

/-- Modelled from the spec: a group placement must not exceed the shift's
capacity (spec section 4.3, step 1). -/
def groupCapacityOk (shift : Shift) (acc : List Assignment) (g : Group) : Bool :=
  match shift.capacity with
  | none => true
  | some c => decide (assignedCount acc shift.id + g.members.length ≤ c)

/-- Modelled from the spec: a group fits a shift when its placement respects
capacity, every member has remaining fairness capacity, and no member is
already on the shift (spec sections 4.2 and 4.3). -/
def groupFits (cfg : PlanConfig) (acc : List Assignment) (shift : Shift) (g : Group) : Bool :=
  groupCapacityOk shift acc g
    && g.members.all (fun m => decide (userShiftCount acc m < cfg.maxShiftsPerUser))
    && g.members.all (fun m => !(alreadyOnShift acc shift.id m))

/-- Total assignment count across a group's members (the group load order key
of spec section 4.3, step 1). -/
def groupLoad (assignments : List Assignment) (g : Group) : Nat :=
  (g.members.map (userShiftCount assignments)).sum

/-- Modelled from the spec: pick the first eligible, fitting group in
ascending (load, identifier) order (spec section 4.3, step 1). -/
def pickGroup (cfg : PlanConfig) (acc : List Assignment) (optOuts : List OptOut)
    (groups : List Group) (shift : Shift) : Option Group :=
  (sortByKey (fun g => (groupLoad acc g, g.id)) groups).find?
    (fun g => eligibleGroup optOuts shift.id g && groupFits cfg acc shift g)

/-- One Assignment record per member of a placed group, tagged as assigned
via group (spec section 3). -/
def groupAssignments (shift : Shift) (g : Group) : List Assignment :=
  g.members.map (fun m => ⟨shift.id, m, AssignedVia.group, some g.id⟩)

/-- Modelled from the spec: pick the first eligible individual with remaining
fairness capacity, in ascending (personal count, identifier) order, who is
not already on the shift (spec section 4.3, step 2). -/
def pickIndividual (cfg : PlanConfig) (acc : List Assignment) (optOuts : List OptOut)
    (volunteers : List Volunteer) (shift : Shift) : Option Volunteer :=
  (sortByKey (fun v => (userShiftCount acc v.id, v.id)) volunteers).find?
    (fun v => eligibleIndividual optOuts shift.id v
      && decide (userShiftCount acc v.id < cfg.maxShiftsPerUser)
      && !(alreadyOnShift acc shift.id v.id))

/-- Modelled from the spec: fill one shift — while capacity remains, place a
group (when enabled) or else an individual; stop when nobody can be placed
(spec section 4.3).  The fuel argument realizes the spec's hard safety
ceiling for unbounded shifts. -/
def fillShift (cfg : PlanConfig) (volunteers : List Volunteer) (groups : List Group)
    (optOuts : List OptOut) (shift : Shift) : Nat → List Assignment → List Assignment
  | 0, acc => acc
  | fuel + 1, acc =>
    if capOkFor shift acc then
      match (if cfg.useGroups then pickGroup cfg acc optOuts groups shift else none) with
      | some g =>
        fillShift cfg volunteers groups optOuts shift fuel (acc ++ groupAssignments shift g)
      | none =>
        match pickIndividual cfg acc optOuts volunteers shift with
        | some v =>
          fillShift cfg volunteers groups optOuts shift fuel
            (acc ++ [⟨shift.id, v.id, AssignedVia.individual, none⟩])
        | none => acc
    else acc

/-- Iteration budget for one shift: its capacity, or for an unbounded shift
the number of volunteers (the spec's "do not exceed the number of eligible
candidates" safety ceiling, section 4.3). -/
def shiftFuel (shift : Shift) (volunteers : List Volunteer) : Nat :=
  match shift.capacity with
  | some c => c
  | none => volunteers.length

/-- Modelled from the spec: the Allocation Planner — process shifts in
ascending (start time, identifier) order, filling each from the given seed
state (spec section 4.3).  The planner is a pure function of its inputs. -/
def plan (shifts : List Shift) (volunteers : List Volunteer) (groups : List Group)
    (optOuts : List OptOut) (cfg : PlanConfig) (seed : List Assignment) : List Assignment :=
  (sortByKey (fun s => (s.startTime, s.id)) shifts).foldl
    (fun acc s => fillShift cfg volunteers groups optOuts s (shiftFuel s volunteers) acc) seed

/-- The engine's configuration error (spec section 7). -/
inductive PlanError where
  | badConfig
deriving DecidableEq, Repr

/-- The persistent state the engine reads and writes. -/
structure EngineDb where
  shifts : List Shift
  volunteers : List Volunteer
  groups : List Group
  optOuts : List OptOut
  assignments : List Assignment
deriving DecidableEq, Repr

/-- Modelled from the spec: the generate-plan endpoint — a configuration with
`maxShiftsPerUser ≤ 0` is rejected before any computation with nothing read
and nothing written (spec section 7); otherwise the planner runs from the
cleared or existing assignment state and the result is committed
(spec section 4.4). -/
def runPlanEndpoint (maxShiftsPerUser : Int) (clearExisting useGroups : Bool)
    (db : EngineDb) : Except PlanError (EngineDb × List Assignment) :=
  if maxShiftsPerUser ≤ 0 then Except.error PlanError.badConfig
  else
    let cfg : PlanConfig := ⟨clearExisting, useGroups, maxShiftsPerUser.toNat⟩
    let seed := if clearExisting then [] else db.assignments
    let result := plan db.shifts db.volunteers db.groups db.optOuts cfg seed
    Except.ok (⟨db.shifts, db.volunteers, db.groups, db.optOuts, result⟩, result)

lemma mem_appendIfAbsent (l : List Nat) (a x : Nat) :
    (x ∈ if l.contains a then l else l ++ [a]) ↔ x ∈ l ∨ x = a := by
  by_cases h : a ∈ l
  · simp [List.contains, List.elem_iff, h]
    intro hx
    subst hx
    exact h
  · simp [List.contains, List.elem_iff, h]

lemma mem_batchOptimisticUpdate_optIn (ps : List (Nat × BatchAction)) :
    ∀ (l : List Nat) (x : Nat), (∀ p ∈ ps, p.2 = BatchAction.optIn) →
      (x ∈ batchOptimisticUpdate l ps ↔ x ∈ l ∧ ∀ p ∈ ps, x ≠ p.1) := by
  induction ps with
  | nil =>
    intro l x _
    simp [batchOptimisticUpdate]
  | cons p ps ih =>
    intro l x hall
    obtain ⟨a, b⟩ := p
    have hb : b = BatchAction.optIn := hall (a, b) (List.mem_cons_self _ _)
    subst hb
    have hrest : ∀ q ∈ ps, q.2 = BatchAction.optIn :=
      fun q hq => hall q (List.mem_cons_of_mem _ hq)
    have hstep : batchOptimisticUpdate l ((a, BatchAction.optIn) :: ps)
        = batchOptimisticUpdate (l.filter (fun i => i != a)) ps := rfl
    rw [hstep, ih _ x hrest]
    simp only [List.mem_filter, bne_iff_ne, ne_eq, decide_not, List.mem_cons,
      decide_eq_true_eq]
    constructor
    · rintro ⟨⟨hl, hna⟩, hps⟩
      refine ⟨hl, ?_⟩
      rintro q (rfl | hq)
      · simpa using hna
      · exact hps q hq
    · rintro ⟨hl, hq⟩
      refine ⟨⟨hl, ?_⟩, fun q hqm => hq q (Or.inr hqm)⟩
      simpa using hq (a, BatchAction.optIn) (Or.inl rfl)

lemma mem_batchOptimisticUpdate_optOut (ps : List (Nat × BatchAction)) :
    ∀ (l : List Nat) (x : Nat), (∀ p ∈ ps, p.2 = BatchAction.optOut) →
      (x ∈ batchOptimisticUpdate l ps ↔ x ∈ l ∨ ∃ p ∈ ps, x = p.1) := by
  induction ps with
  | nil =>
    intro l x _
    simp [batchOptimisticUpdate]
  | cons p ps ih =>
    intro l x hall
    obtain ⟨a, b⟩ := p
    have hb : b = BatchAction.optOut := hall (a, b) (List.mem_cons_self _ _)
    subst hb
    have hrest : ∀ q ∈ ps, q.2 = BatchAction.optOut :=
      fun q hq => hall q (List.mem_cons_of_mem _ hq)
    have hstep : batchOptimisticUpdate l ((a, BatchAction.optOut) :: ps)
        = batchOptimisticUpdate (if l.contains a then l else l ++ [a]) ps := rfl
    rw [hstep, ih _ x hrest, mem_appendIfAbsent]
    simp only [List.mem_cons]
    constructor
    · rintro ((hl | rfl) | ⟨q, hq, rfl⟩)
      · exact Or.inl hl
      · exact Or.inr ⟨(x, BatchAction.optOut), Or.inl rfl, rfl⟩
      · exact Or.inr ⟨q, Or.inr hq, rfl⟩
    · rintro (hl | ⟨q, (rfl | hq), rfl⟩)
      · exact Or.inl (Or.inl hl)
      · exact Or.inl (Or.inr rfl)
      · exact Or.inr ⟨q, hq, rfl⟩

lemma mem_batchRevertFailed_optIn (ps : List (Nat × BatchAction)) :
    ∀ (cur : List Nat) (x : Nat), (∀ p ∈ ps, p.2 = BatchAction.optIn) →
      (x ∈ batchRevertFailed cur ps ↔ x ∈ cur ∨ ∃ p ∈ ps, x = p.1) := by
  induction ps with
  | nil =>
    intro cur x _
    simp [batchRevertFailed]
  | cons p ps ih =>
    intro cur x hall
    obtain ⟨a, b⟩ := p
    have hb : b = BatchAction.optIn := hall (a, b) (List.mem_cons_self _ _)
    subst hb
    have hrest : ∀ q ∈ ps, q.2 = BatchAction.optIn :=
      fun q hq => hall q (List.mem_cons_of_mem _ hq)
    have hstep : batchRevertFailed cur ((a, BatchAction.optIn) :: ps)
        = batchRevertFailed (if cur.contains a then cur else cur ++ [a]) ps := rfl
    rw [hstep, ih _ x hrest, mem_appendIfAbsent]
    simp only [List.mem_cons]
    constructor
    · rintro ((hl | rfl) | ⟨q, hq, rfl⟩)
      · exact Or.inl hl
      · exact Or.inr ⟨(x, BatchAction.optIn), Or.inl rfl, rfl⟩
      · exact Or.inr ⟨q, Or.inr hq, rfl⟩
    · rintro (hl | ⟨q, (rfl | hq), rfl⟩)
      · exact Or.inl (Or.inl hl)
      · exact Or.inl (Or.inr rfl)
      · exact Or.inr ⟨q, hq, rfl⟩

lemma mem_batchRevertFailed_optOut (ps : List (Nat × BatchAction)) :
    ∀ (cur : List Nat) (x : Nat), (∀ p ∈ ps, p.2 = BatchAction.optOut) →
      (x ∈ batchRevertFailed cur ps ↔ x ∈ cur ∧ ∀ p ∈ ps, x ≠ p.1) := by
  induction ps with
  | nil =>
    intro cur x _
    simp [batchRevertFailed]
  | cons p ps ih =>
    intro cur x hall
    obtain ⟨a, b⟩ := p
    have hb : b = BatchAction.optOut := hall (a, b) (List.mem_cons_self _ _)
    subst hb
    have hrest : ∀ q ∈ ps, q.2 = BatchAction.optOut :=
      fun q hq => hall q (List.mem_cons_of_mem _ hq)
    have hstep : batchRevertFailed cur ((a, BatchAction.optOut) :: ps)
        = batchRevertFailed (cur.filter (fun i => i != a)) ps := rfl
    rw [hstep, ih _ x hrest]
    simp only [List.mem_filter, bne_iff_ne, ne_eq, decide_not, List.mem_cons,
      decide_eq_true_eq]
    constructor
    · rintro ⟨⟨hl, hna⟩, hps⟩
      refine ⟨hl, ?_⟩
      rintro q (rfl | hq)
      · simpa using hna
      · exact hps q hq
    · rintro ⟨hl, hq⟩
      refine ⟨⟨hl, ?_⟩, fun q hqm => hq q (Or.inr hqm)⟩
      simpa using hq (a, BatchAction.optOut) (Or.inl rfl)

lemma mem_batchShiftsToProcess_true (optedOutShifts dayShiftIds : List Nat)
    (p : Nat × BatchAction) (hp : p ∈ batchShiftsToProcess optedOutShifts dayShiftIds true) :
    p.2 = BatchAction.optIn ∧ p.1 ∈ optedOutShifts := by
  simp only [batchShiftsToProcess, List.mem_filterMap] at hp
  obtain ⟨i, _, hf⟩ := hp
  by_cases h : i ∈ optedOutShifts
  · simp [List.contains, List.elem_iff, h] at hf
    subst hf
    exact ⟨rfl, h⟩
  · simp [List.contains, List.elem_iff, h] at hf

lemma mem_batchShiftsToProcess_false (optedOutShifts dayShiftIds : List Nat)
    (p : Nat × BatchAction) (hp : p ∈ batchShiftsToProcess optedOutShifts dayShiftIds false) :
    p.2 = BatchAction.optOut ∧ p.1 ∉ optedOutShifts := by
  simp only [batchShiftsToProcess, List.mem_filterMap] at hp
  obtain ⟨i, _, hf⟩ := hp
  by_cases h : i ∈ optedOutShifts
  · simp [List.contains, List.elem_iff, h] at hf
  · simp [List.contains, List.elem_iff, h] at hf
    subst hf
    exact ⟨rfl, h⟩

lemma perm_insertByKey {α : Type} (key : α → Nat × Nat) (a : α) (l : List α) :
    List.Perm (insertByKey key a l) (a :: l) := by
  induction l with
  | nil => simp [insertByKey]
  | cons b bs ih =>
    simp only [insertByKey]
    split
    · exact List.Perm.refl _
    · exact (List.Perm.cons b ih).trans (List.Perm.swap a b bs)

lemma perm_sortByKey {α : Type} (key : α → Nat × Nat) (l : List α) :
    List.Perm (sortByKey key l) l := by
  induction l with
  | nil => simp [sortByKey]
  | cons a as ih =>
    exact (perm_insertByKey key a (sortByKey key as)).trans (List.Perm.cons a ih)

lemma assignedCount_append (l1 l2 : List Assignment) (sid : Nat) :
    assignedCount (l1 ++ l2) sid = assignedCount l1 sid + assignedCount l2 sid := by
  simp [assignedCount, List.filter_append]

lemma assignedCount_groupAssignments (shift : Shift) (g : Group) :
    assignedCount (groupAssignments shift g) shift.id = g.members.length := by
  unfold groupAssignments
  induction g.members with
  | nil => simp [assignedCount]
  | cons m ms ih => simpa [assignedCount, List.filter] using ih

lemma assignedCount_singleton (sid uid : Nat) (via : AssignedVia) (gid : Option Nat) :
    assignedCount [⟨sid, uid, via, gid⟩] sid = 1 := by
  simp [assignedCount, List.filter]

lemma fillShift_extra (cfg : PlanConfig) (volunteers : List Volunteer)
    (groups : List Group) (optOuts : List OptOut) (shift : Shift) :
    ∀ (fuel : Nat) (acc : List Assignment),
      ∃ extra : List Assignment,
        fillShift cfg volunteers groups optOuts shift fuel acc = acc ++ extra ∧
          ∀ a ∈ extra, a.shiftId = shift.id := by
  intro fuel
  induction fuel with
  | zero =>
    intro acc
    exact ⟨[], by simp [fillShift], by simp⟩
  | succ fuel ih =>
    intro acc
    simp only [fillShift]
    split
    · split
      · rename_i g _
        obtain ⟨extra, hEq, hAll⟩ := ih (acc ++ groupAssignments shift g)
        refine ⟨groupAssignments shift g ++ extra, by rw [hEq, List.append_assoc], ?_⟩
        intro a ha
        rcases List.mem_append.mp ha with hga | hex
        · obtain ⟨m, _, rfl⟩ := List.mem_map.mp hga
          rfl
        · exact hAll a hex
      · split
        · rename_i v _
          obtain ⟨extra, hEq, hAll⟩ :=
            ih (acc ++ [⟨shift.id, v.id, AssignedVia.individual, none⟩])
          refine ⟨⟨shift.id, v.id, AssignedVia.individual, none⟩ :: extra,
            by rw [hEq, List.append_assoc]; rfl, ?_⟩
          intro a ha
          rcases List.mem_cons.mp ha with rfl | hex
          · rfl
          · exact hAll a hex
        · exact ⟨[], by simp, by simp⟩
    · exact ⟨[], by simp, by simp⟩

lemma fillShift_capacity (cfg : PlanConfig) (volunteers : List Volunteer)
    (groups : List Group) (optOuts : List OptOut) (shift : Shift) (c : Nat)
    (hc : shift.capacity = some c) :
    ∀ (fuel : Nat) (acc : List Assignment), assignedCount acc shift.id ≤ c →
      assignedCount (fillShift cfg volunteers groups optOuts shift fuel acc) shift.id ≤ c := by
  intro fuel
  induction fuel with
  | zero =>
    intro acc h
    simpa [fillShift] using h
  | succ fuel ih =>
    intro acc h
    simp only [fillShift]
    split
    · rename_i hcap
      have hlt : assignedCount acc shift.id < c := by
        simpa [capOkFor, hc] using hcap
      split
      · rename_i g heq
        apply ih
        rw [assignedCount_append, assignedCount_groupAssignments]
        have hg : pickGroup cfg acc optOuts groups shift = some g := by
          by_cases hug : cfg.useGroups
          · simpa [hug] using heq
          · simp [hug] at heq
        have hp := List.find?_some hg
        simp only [groupFits, Bool.and_eq_true] at hp
        have hcapok := hp.2.1.1
        rw [groupCapacityOk, hc] at hcapok
        exact of_decide_eq_true hcapok
      · split
        · rename_i v _
          apply ih
          rw [assignedCount_append, assignedCount_singleton]
          omega
        · exact h
    · exact h

lemma fillShift_other (cfg : PlanConfig) (volunteers : List Volunteer)
    (groups : List Group) (optOuts : List OptOut) (shift : Shift) (t : Nat)
    (ht : t ≠ shift.id) (fuel : Nat) (acc : List Assignment) :
    assignedCount (fillShift cfg volunteers groups optOuts shift fuel acc) t
      = assignedCount acc t := by
  obtain ⟨extra, hEq, hAll⟩ := fillShift_extra cfg volunteers groups optOuts shift fuel acc
  rw [hEq, assignedCount_append]
  have hz : assignedCount extra t = 0 := by
    rw [assignedCount, List.length_eq_zero, List.filter_eq_nil_iff]
    intro a ha
    have hsid := hAll a ha
    simp [hsid]
    omega
  omega

lemma plan_foldl_invariant (shifts : List Shift) (cfg : PlanConfig)
    (volunteers : List Volunteer) (groups : List Group) (optOuts : List OptOut)
    (hnd : (shifts.map (fun s => s.id)).Nodup) :
    ∀ (sl : List Shift), (∀ t ∈ sl, t ∈ shifts) →
      ∀ (acc : List Assignment),
        (∀ s ∈ shifts, ∀ c : Nat, s.capacity = some c → assignedCount acc s.id ≤ c) →
        ∀ s ∈ shifts, ∀ c : Nat, s.capacity = some c →
          assignedCount
              (sl.foldl
                (fun acc2 t => fillShift cfg volunteers groups optOuts t
                  (shiftFuel t volunteers) acc2) acc) s.id
            ≤ c := by
  intro sl
  induction sl with
  | nil =>
    intro _ acc hP
    simpa using hP
  | cons t ts ih =>
    intro hmem acc hP
    simp only [List.foldl_cons]
    apply ih (fun u hu => hmem u (List.mem_cons_of_mem _ hu))
    intro s hs c hcs
    by_cases hid : s.id = t.id
    · have hteq : s = t := by
        have htmem : t ∈ shifts := hmem t (List.mem_cons_self _ _)
        exact List.inj_on_of_nodup_map hnd hs htmem hid
      subst hteq
      exact fillShift_capacity cfg volunteers groups optOuts s c hcs _ acc (hP s hs c hcs)
    · rw [fillShift_other cfg volunteers groups optOuts t s.id hid]
      exact hP s hs c hcs

/-- Claim C1: the coordinator plan-generation request is supposed to carry
`clearExisting`, `useGroups` and `maxShiftsPerUser` each bound to its own
request parameter.  The code instead passes `maxShiftsPerUser` positionally
into the `clearExisting` slot of `generatePlan`, so the request carries
`clear_existing` bound to the number 10 (not a boolean), `use_groups` bound to
its default, and no `max_shifts_per_user` parameter at all. -/
theorem generate_plan_request_drops_max_shifts :
    handleGeneratePlanParams 10 =
      [("clear_existing", JSValue.num 10), ("use_groups", JSValue.bool true)] ∧
    ((handleGeneratePlanParams 10).map Prod.fst).contains "max_shifts_per_user" = false := by
  exact ⟨rfl, by decide⟩

/-- Claim C3: a shift id is in the available list iff it is one of the fetched
shifts' ids and carries no opt-out record, and the volunteer grid presents a
shift as available exactly when its id is in that list, i.e. exactly when it
is not opted out — there is no third state. -/
theorem available_iff_not_opted_out (shifts : List UIShift) (optedOutShifts : List Nat) :
    (∀ i : Nat, i ∈ availableShiftIds shifts optedOutShifts ↔
      (i ∈ shifts.map (fun s => s.id) ∧ i ∉ optedOutShifts)) ∧
    (∀ s : UIShift, s ∈ shifts →
      isAvailable (availableShiftIds shifts optedOutShifts) s.id
        = !(optedOutShifts.contains s.id)) := by
  constructor
  · intro i
    simp [availableShiftIds, List.mem_filter]
  · intro s hs
    simp only [isAvailable, availableShiftIds]
    by_cases h : s.id ∈ optedOutShifts
    · simp [List.elem_iff, List.mem_filter, h]
    · simp [List.elem_iff, List.mem_filter, h]
      exact ⟨s, hs, rfl⟩

/-- Witness for `available_iff_not_opted_out` at a concrete snapshot:
two shifts, the second opted out. -/
theorem available_iff_not_opted_out_witness :
    isAvailable
        (availableShiftIds
          [⟨1, ⟨0, 12, 0⟩, none, []⟩, ⟨2, ⟨0, 14, 0⟩, none, []⟩] [2])
        (2 : Nat)
      = !(([2] : List Nat).contains 2) :=
  (available_iff_not_opted_out
      [⟨1, ⟨0, 12, 0⟩, none, []⟩, ⟨2, ⟨0, 14, 0⟩, none, []⟩] [2]).2
    ⟨2, ⟨0, 14, 0⟩, none, []⟩ (by decide)

/-- Claim C6: every user offered in the manual add-user dialog for a shift is
not already assigned to that shift, so a manual add from that list never
duplicates an existing (volunteer, shift) assignment. -/
theorem add_user_candidates_not_assigned
    (availableUsers shiftUsers : List UIUser) :
    ∀ u ∈ filterAvailableUsers availableUsers shiftUsers,
      u.id ∉ shiftUsers.map (fun v => v.id) := by
  intro u hu hmem
  simp [filterAvailableUsers, List.mem_filter, List.elem_iff, List.contains] at hu
  simp [List.mem_map] at hmem
  obtain ⟨v, hv, hvid⟩ := hmem
  exact hu.2 v hv hvid

/-- Witness for `add_user_candidates_not_assigned`: with users 1 and 2
available and user 2 already on the shift, user 1 survives the filter and is
indeed not among the shift's user ids. -/
theorem add_user_candidates_not_assigned_witness :
    (⟨1⟩ : UIUser).id ∉ ([⟨2⟩] : List UIUser).map (fun v => v.id) :=
  add_user_candidates_not_assigned [⟨1⟩, ⟨2⟩] [⟨2⟩] ⟨1⟩ (by decide)

/-- Claim C9: a volunteer with a group issues every availability toggle at
group scope (group_id, shift_id) and a volunteer without a group at
individual scope (user_id, shift_id), both for the single toggle and for
every member of a batch day-toggle. -/
theorem toggle_scope_follows_group_membership
    (user : DashUser) (optedOutShifts : List Nat) (shiftId : Nat) :
    (∀ g : Nat, user.groupId = some g →
      requestScope (toggleRequest user optedOutShifts shiftId) = OptScope.group g shiftId ∧
      ∀ action : BatchAction,
        requestScope (batchShiftRequest user action shiftId) = OptScope.group g shiftId) ∧
    (user.groupId = none →
      requestScope (toggleRequest user optedOutShifts shiftId)
          = OptScope.individual user.id shiftId ∧
      ∀ action : BatchAction,
        requestScope (batchShiftRequest user action shiftId)
          = OptScope.individual user.id shiftId) := by
  constructor
  · intro g hg
    constructor
    · simp only [toggleRequest, hg]
      by_cases h : shiftId ∈ optedOutShifts <;> simp [h, requestScope]
    · intro action
      cases action <;> simp [batchShiftRequest, hg, requestScope]
  · intro hg
    constructor
    · simp only [toggleRequest, hg]
      by_cases h : shiftId ∈ optedOutShifts <;> simp [h, requestScope]
    · intro action
      cases action <;> simp [batchShiftRequest, hg, requestScope]

/-- Witness for `toggle_scope_follows_group_membership`: a member of group 5
toggling shift 3 issues a group-scoped request. -/
theorem toggle_scope_follows_group_membership_witness :
    requestScope (toggleRequest ⟨1, some 5⟩ [] 3) = OptScope.group 5 3 :=
  ((toggle_scope_follows_group_membership ⟨1, some 5⟩ [] 3).1 5 rfl).1

/-- Counterexample to claim C10 as stated: for a shift starting at 02:00 the
coordinator grid displays it under the previous calendar day, but the
volunteer grid (ShiftGrid.js) groups it under its actual start date, so the
two grids disagree — it is not true that both grids display it under the
previous day. -/
theorem volunteer_grid_keeps_actual_day :
    getShiftDisplayDay ⟨10, 2, 0⟩ = 9 ∧
    dashboardDateKey ⟨10, 2, 0⟩ = 10 := by
  exact ⟨by decide, rfl⟩

/-- Claim C10 (amended): the coordinator grid displays a shift starting in
[00:00, 06:00) under the previous calendar day while the volunteer grid keeps
the actual day, and within a displayed day both grids order shifts by start
time with early-morning hours increased by 24, placing them after the same
day's late-evening shifts. -/
theorem early_morning_display_and_order (t u : ClockTime) :
    (t.hour < 6 → getShiftDisplayDay t = t.day - 1) ∧
    (6 ≤ t.hour → getShiftDisplayDay t = t.day) ∧
    dashboardDateKey t = t.day ∧
    (6 ≤ t.hour → t.hour < 24 → t.minute < 60 → u.hour < 6 →
      coordSortMinutes t < coordSortMinutes u) ∧
    (∀ h1 m1 h2 m2 : Nat, 6 ≤ h1 → h1 < 24 → m1 < 60 → h2 < 6 →
      gridSlotMinutes h1 m1 < gridSlotMinutes h2 m2) := by
  refine ⟨fun h => ?_, fun h => ?_, rfl, fun h1 h2 h3 h4 => ?_, fun a b c d ha hb hc hd => ?_⟩
  · simp [getShiftDisplayDay, h]
  · rw [getShiftDisplayDay, if_neg (by omega)]
  · rw [coordSortMinutes, coordSortMinutes, if_neg (by omega), if_pos h4]
    omega
  · rw [gridSlotMinutes, gridSlotMinutes, if_neg (by omega), if_pos hd]
    omega

/-- Witness for `early_morning_display_and_order`: a 22:30 shift sorts before
a 02:00 shift of the following night within the same displayed day. -/
theorem early_morning_display_and_order_witness :
    coordSortMinutes ⟨10, 22, 30⟩ < coordSortMinutes ⟨11, 2, 0⟩ :=
  (early_morning_display_and_order ⟨10, 22, 30⟩ ⟨11, 2, 0⟩).2.2.2.1
    (by decide) (by decide) (by decide) (by decide)

/-- Counterexample to claim C7 as stated: typing `-5` into the Max Shifts per
User field stores the negative value `-5`, not a positive integer — the
`parseInt(value) || 10` fallback only replaces `NaN` and `0`. -/
theorem negative_max_shifts_accepted :
    maxShiftsPerUserOnChange "-5" = -5 ∧
    decide (0 < maxShiftsPerUserOnChange "-5") = false := by
  exact ⟨by decide, by decide⟩

/-- Counterexample to claim C2 as stated: a shift with declared capacity 0 and
no assigned users renders the manual add-user control even though its assigned
count (0) is not strictly below its declared capacity (0) — `!shift.capacity`
treats the declared capacity 0 as missing. -/
theorem zero_capacity_shows_add_button :
    hasCapacity ⟨7, ⟨0, 12, 0⟩, some 0, []⟩ = true ∧
    (⟨7, ⟨0, 12, 0⟩, some 0, []⟩ : UIShift).capacity = some 0 ∧
    (⟨7, ⟨0, 12, 0⟩, some 0, []⟩ : UIShift).users.length = 0 := by
  exact ⟨rfl, rfl, rfl⟩

/-- Claim C4: a failed opt-out/opt-in leaves the tracked opted-out set
unchanged — after the revert of a failed single toggle the opted-out list has
exactly its previous members, and after a batch day-toggle every failed
member's opted-out status equals its status from before the batch. -/
theorem failed_toggle_leaves_availability_unchanged :
    (∀ (optedOutShifts : List Nat) (shiftId x : Nat),
      x ∈ handleTogglePreferenceFailure optedOutShifts shiftId ↔ x ∈ optedOutShifts) ∧
    (∀ (optedOutShifts dayShiftIds : List Nat) (shouldSelect : Bool)
        (failed : List (Nat × BatchAction)),
      (∀ p ∈ failed, p ∈ batchShiftsToProcess optedOutShifts dayShiftIds shouldSelect) →
      ∀ p ∈ failed,
        (p.1 ∈ batchRevertFailed
            (batchOptimisticUpdate optedOutShifts
              (batchShiftsToProcess optedOutShifts dayShiftIds shouldSelect)) failed
          ↔ p.1 ∈ optedOutShifts)) := by
  constructor
  · intro l shiftId x
    unfold handleTogglePreferenceFailure toggleRevertUpdate toggleOptimisticUpdate
    by_cases h : shiftId ∈ l
    · have hc : l.contains shiftId = true := by simp [List.contains, List.elem_iff, h]
      rw [if_pos hc, if_pos hc]
      simp only [List.mem_append, List.mem_filter, bne_iff_ne, ne_eq,
        decide_not, decide_eq_true_eq, List.mem_singleton]
      by_cases hx : x = shiftId
      · subst hx
        simp [h]
      · simp [hx]
    · have hc : ¬(l.contains shiftId = true) := by
        simp [List.contains, List.elem_iff, h]
      rw [if_neg hc, if_neg hc]
      simp only [List.mem_filter, List.mem_append, List.mem_singleton,
        bne_iff_ne, ne_eq, decide_not, decide_eq_true_eq]
      constructor
      · rintro ⟨hl | rfl, hne⟩
        · exact hl
        · exact absurd rfl hne
      · intro hl
        refine ⟨Or.inl hl, ?_⟩
        rintro rfl
        exact h hl
  · intro l ids shouldSelect failed hsub p hp
    cases shouldSelect
    · have hproc : ∀ q ∈ batchShiftsToProcess l ids false,
          q.2 = BatchAction.optOut ∧ q.1 ∉ l :=
        fun q hq => mem_batchShiftsToProcess_false l ids q hq
      have hallfail : ∀ q ∈ failed, q.2 = BatchAction.optOut :=
        fun q hq => (hproc q (hsub q hq)).1
      have hallp : ∀ q ∈ batchShiftsToProcess l ids false, q.2 = BatchAction.optOut :=
        fun q hq => (hproc q hq).1
      rw [mem_batchRevertFailed_optOut failed _ _ hallfail]
      have hnot : p.1 ∉ l := (hproc p (hsub p hp)).2
      constructor
      · rintro ⟨-, hne⟩
        exact absurd rfl (hne p hp)
      · intro hl
        exact absurd hl hnot
    · have hproc : ∀ q ∈ batchShiftsToProcess l ids true,
          q.2 = BatchAction.optIn ∧ q.1 ∈ l :=
        fun q hq => mem_batchShiftsToProcess_true l ids q hq
      have hallfail : ∀ q ∈ failed, q.2 = BatchAction.optIn :=
        fun q hq => (hproc q (hsub q hq)).1
      rw [mem_batchRevertFailed_optIn failed _ _ hallfail]
      have hmem : p.1 ∈ l := (hproc p (hsub p hp)).2
      exact ⟨fun _ => hmem, fun _ => Or.inr ⟨p, hp, rfl⟩⟩

/-- Witness for `failed_toggle_leaves_availability_unchanged`: shift 1 was
opted out, a batch opt-in for day shifts 1 and 2 processes and fails on
shift 1, and after the revert shift 1 is opted out again exactly as before. -/
theorem failed_toggle_leaves_availability_unchanged_witness :
    ((1, BatchAction.optIn).1 ∈
        batchRevertFailed
          (batchOptimisticUpdate [1] (batchShiftsToProcess [1] [1, 2] true))
          [(1, BatchAction.optIn)]
      ↔ (1, BatchAction.optIn).1 ∈ [1]) :=
  failed_toggle_leaves_availability_unchanged.2 [1] [1, 2] true [(1, BatchAction.optIn)]
    (by decide) (1, BatchAction.optIn) (by decide)

/-- Claim C5: the full reset deletes every Assignment record and reports the
count; run again on the resulting empty store it reports zero and leaves the
store empty; and the coordinator view holds no current assignments after a
successful reset. -/
theorem reset_all_idempotent (assignments : List Assignment) (s : CoordViewState) :
    resetAll assignments = (assignments.length, []) ∧
    resetAll (resetAll assignments).2 = (0, []) ∧
    (handleResetAllAssignmentsSuccess s).currentAssignments = none :=
  ⟨rfl, rfl, rfl⟩

/-- Claim C2 (amended): a planner run never pushes a shift beyond its
declared capacity — for every run of the (spec-modelled) planner from a seed
state within capacity, each shift with a declared capacity ends with at most
that many assignments; and the coordinator grid offers the manual add-user
control exactly when the shift's assigned count is strictly below its
declared capacity or the capacity value is absent or zero (a declared
capacity of 0 is falsy in JavaScript and treated like a missing one). -/
theorem capacity_invariant_and_add_button_gate :
    (∀ (shifts : List Shift) (volunteers : List Volunteer) (groups : List Group)
        (optOuts : List OptOut) (cfg : PlanConfig) (seed : List Assignment),
      (shifts.map (fun s => s.id)).Nodup →
      (∀ s ∈ shifts, ∀ c : Nat, s.capacity = some c → assignedCount seed s.id ≤ c) →
      ∀ s ∈ shifts, ∀ c : Nat, s.capacity = some c →
        assignedCount (plan shifts volunteers groups optOuts cfg seed) s.id ≤ c) ∧
    (∀ shift : UIShift, hasCapacity shift = true ↔
      (shift.capacity = none ∨ shift.capacity = some 0 ∨
        ∃ c : Nat, shift.capacity = some c ∧ shift.users.length < c)) := by
  constructor
  · intro shifts volunteers groups optOuts cfg seed hnd hseed
    have hperm := perm_sortByKey (fun s => (s.startTime, s.id)) shifts
    exact plan_foldl_invariant shifts cfg volunteers groups optOuts hnd
      (sortByKey (fun s => (s.startTime, s.id)) shifts)
      (fun t ht => hperm.mem_iff.mp ht) seed hseed
  · intro shift
    cases hcap : shift.capacity with
    | none => simp [hasCapacity, jsFalsyCapacity, capacityCompare, hcap]
    | some c =>
      by_cases hc0 : c = 0
      · subst hc0
        simp [hasCapacity, jsFalsyCapacity, capacityCompare, hcap]
      · simp [hasCapacity, jsFalsyCapacity, capacityCompare, hcap, hc0]

/-- Witness for `capacity_invariant_and_add_button_gate`: one shift of
capacity 1 and two volunteers — the generated plan puts at most one
assignment on the shift. -/
theorem capacity_invariant_and_add_button_gate_witness :
    assignedCount
        (plan [⟨1, 0, some 1⟩] [⟨1, none⟩, ⟨2, none⟩] [] [] ⟨true, true, 5⟩ [])
        (1 : Nat) ≤ 1 :=
  capacity_invariant_and_add_button_gate.1 [⟨1, 0, some 1⟩] [⟨1, none⟩, ⟨2, none⟩] [] []
    ⟨true, true, 5⟩ [] (by decide) (fun s _ c _ => by simp [assignedCount])
    ⟨1, 0, some 1⟩ (by decide) 1 rfl

/-- Claim C7 (amended): the Max Shifts per User field never stores zero — a
typed value parsing to a positive integer is stored as is, and an
empty/unparsable or zero value is replaced by the default 10 — but a typed
negative integer is stored unchanged (the input's min=1 attribute does not
constrain typed text); the (spec-modelled) engine rejects any run with
maxShiftsPerUser ≤ 0 before any computation, reading and writing nothing. -/
theorem max_shifts_field_and_engine_guard :
    (∀ s : String, maxShiftsPerUserOnChange s ≠ 0) ∧
    (∀ (s : String) (n : Int), parseIntJS s = some n → 0 < n →
      maxShiftsPerUserOnChange s = n) ∧
    (∀ s : String, parseIntJS s = none ∨ parseIntJS s = some 0 →
      maxShiftsPerUserOnChange s = 10) ∧
    (∀ (s : String) (n : Int), parseIntJS s = some n → n < 0 →
      maxShiftsPerUserOnChange s = n) ∧
    (∀ (m : Int) (clearExisting useGroups : Bool) (db : EngineDb), m ≤ 0 →
      runPlanEndpoint m clearExisting useGroups db
        = Except.error PlanError.badConfig) := by
  refine ⟨?_, ?_, ?_, ?_, ?_⟩
  · intro s
    unfold maxShiftsPerUserOnChange
    cases h : parseIntJS s with
    | none => simp
    | some n =>
      by_cases hn : n = 0 <;> simp [hn]
  · intro s n h hpos
    unfold maxShiftsPerUserOnChange
    rw [h]
    exact if_neg (by omega)
  · intro s h
    unfold maxShiftsPerUserOnChange
    rcases h with h | h
    · rw [h]
    · rw [h]
      simp
  · intro s n h hneg
    unfold maxShiftsPerUserOnChange
    rw [h]
    exact if_neg (by omega)
  · intro m clearExisting useGroups db hm
    unfold runPlanEndpoint
    rw [if_pos hm]

/-- Witness for `max_shifts_field_and_engine_guard`: typing `7` stores 7, and
an engine run with maxShiftsPerUser = 0 is rejected as a configuration
error. -/
theorem max_shifts_field_and_engine_guard_witness :
    maxShiftsPerUserOnChange "7" = 7 ∧
    runPlanEndpoint 0 true true ⟨[], [], [], [], []⟩
      = Except.error PlanError.badConfig :=
  ⟨max_shifts_field_and_engine_guard.2.1 "7" 7 (by decide) (by decide),
   max_shifts_field_and_engine_guard.2.2.2.2 0 true true ⟨[], [], [], [], []⟩ (by decide)⟩

/-- Claim C8: determinism — two planner runs over identical input snapshots
and identical configuration produce identical assignment lists; the
spec-modelled planner is a pure function of its snapshot with explicit
(identifier) tie-breaking and no other inputs. -/
theorem plan_deterministic
    (shifts1 shifts2 : List Shift) (vols1 vols2 : List Volunteer)
    (groups1 groups2 : List Group) (opts1 opts2 : List OptOut)
    (cfg1 cfg2 : PlanConfig) (seed1 seed2 : List Assignment)
    (hs : shifts1 = shifts2) (hv : vols1 = vols2) (hg : groups1 = groups2)
    (ho : opts1 = opts2) (hc : cfg1 = cfg2) (ha : seed1 = seed2) :
    plan shifts1 vols1 groups1 opts1 cfg1 seed1
      = plan shifts2 vols2 groups2 opts2 cfg2 seed2 := by
  subst hs hv hg ho hc ha
  rfl

/-- Witness for `plan_deterministic`: two runs on the same one-shift
snapshot coincide. -/
theorem plan_deterministic_witness :
    plan [⟨1, 0, some 2⟩] [⟨1, none⟩] [] [] ⟨true, true, 10⟩ []
      = plan [⟨1, 0, some 2⟩] [⟨1, none⟩] [] [] ⟨true, true, 10⟩ [] :=
  plan_deterministic [⟨1, 0, some 2⟩] [⟨1, 0, some 2⟩] [⟨1, none⟩] [⟨1, none⟩] [] [] [] []
    ⟨true, true, 10⟩ ⟨true, true, 10⟩ [] [] rfl rfl rfl rfl rfl rfl

end OpenFlair
